import Mathlib

/-!
Shallow embedding of the HAR→LoliCode web frontend core
(har-lolicode-prototype-v2): the semantic-entry normalizer
(`HARUploader.processHARFile`), the dependency-model derivations
(`DependencyGraph.dependencies`, `DependencyGraph.getEntryLabel`,
`RequestDataTable.dependencyCount`) and the generation-configuration
builder (`LoliCodeCustomizer`).

JavaScript numbers that only ever hold integral values (matrix cells,
timeout, retry count, sizes, status codes) are modelled as `Int`;
possibly-absent (`undefined`/`null`) values as `Option`; JavaScript `||`
defaulting as an explicit falsy-test.
-/

namespace HarLoli

/-- JavaScript `x || d` for an integer-valued expression `x` that may be
`NaN`/`undefined` (modelled `none`): `NaN`, `undefined` and `0` are falsy
and yield the default `d`; every other number is truthy. -/
def jsOrElse (x : Option Int) (d : Int) : Int :=
  match x with
  | none => d
  | some n => if n = 0 then d else n

/-- One derived dependency edge `{fromIndex, toIndex}`
(`DependencyGraph.tsx`, the `dependencies` useMemo). -/
structure DependencyEdge where
  fromIndex : Nat
  toIndex : Nat
deriving DecidableEq, Repr

/-- The analyzer's adjacency matrix: an array of arrays of numbers. -/
def AdjacencyMatrix := List (List Int)

/-- `DependencyMatrix` as consumed by the components: the adjacency matrix
plus the critical path; `criticalPath := none` models the field being
absent (`undefined`), which is what the guards `matrix?.criticalPath`
and `matrix.criticalPath && ...` test for (a present but empty array is
truthy in JavaScript). -/
structure DependencyMatrix where
  adjacencyMatrix : AdjacencyMatrix
  criticalPath : Option (List Nat)

/-- Inner loop of the `dependencies` useMemo in `DependencyGraph.tsx`:
`for (j...) if (matrix[i][j] === 1) deps.push({fromIndex: i, toIndex: j})`,
with `j` the index of the current cell and `acc` the accumulated `deps`. -/
def rowEdgesLoop (i : Nat) : List Int → Nat → List DependencyEdge → List DependencyEdge
  | [], _, acc => acc
  | c :: rest, j, acc => rowEdgesLoop i rest (j + 1) (if c = 1 then acc ++ [⟨i, j⟩] else acc)

/-- Outer loop of the `dependencies` useMemo in `DependencyGraph.tsx`:
`for (i...)` over the rows of the adjacency matrix. -/
def dependenciesCore : List (List Int) → Nat → List DependencyEdge → List DependencyEdge
  | [], _, acc => acc
  | row :: rest, i, acc => dependenciesCore rest (i + 1) (rowEdgesLoop i row 0 acc)

/-- `DependencyGraph.tsx`, `dependencies` useMemo: scan the adjacency
matrix with nested loops and collect an edge for every cell `=== 1`. -/
def dependencies (m : AdjacencyMatrix) : List DependencyEdge :=
  dependenciesCore m 0 []

/-- Row-major functional description of the scan (the spec's
`edges(matrix)`): one row at a time, cells left to right, one edge per
cell equal to 1. Stated from the spec's words for comparison with the
loop embedding `dependencies`. -/
def rowRM (i : Nat) : List Int → Nat → List DependencyEdge
  | [], _ => []
  | c :: rest, j => (if c = 1 then [⟨i, j⟩] else []) ++ rowRM i rest (j + 1)

/-- Row-major functional description, all rows from row index `i` on. -/
def edgesRM (i : Nat) : List (List Int) → List DependencyEdge
  | [] => []
  | row :: rest => rowRM i row 0 ++ edgesRM (i + 1) rest

/-- The spec's `edges(matrix)`: row-major scan starting at row 0. -/
def edgesRowMajor (m : AdjacencyMatrix) : List DependencyEdge :=
  edgesRM 0 m

lemma rowEdgesLoop_eq (i : Nat) :
    ∀ (row : List Int) (j : Nat) (acc : List DependencyEdge),
      rowEdgesLoop i row j acc = acc ++ rowRM i row j := by
  intro row
  induction row with
  | nil => intro j acc; simp [rowEdgesLoop, rowRM]
  | cons c rest ih =>
    intro j acc
    by_cases hc : c = 1 <;>
      simp [rowEdgesLoop, rowRM, hc, ih, List.append_assoc]

lemma dependenciesCore_eq :
    ∀ (rows : List (List Int)) (i : Nat) (acc : List DependencyEdge),
      dependenciesCore rows i acc = acc ++ edgesRM i rows := by
  intro rows
  induction rows with
  | nil => intro i acc; simp [dependenciesCore, edgesRM]
  | cons row rest ih =>
    intro i acc
    simp [dependenciesCore, edgesRM, rowEdgesLoop_eq, ih, List.append_assoc]

lemma dependencies_eq_rowMajor (m : AdjacencyMatrix) :
    dependencies m = edgesRowMajor m := by
  simp [dependencies, edgesRowMajor, dependenciesCore_eq]

/-- Inner loop of the `dependencyCount` useMemo in `RequestDataTable.tsx`:
`for (j...) if (matrix[i][j] === 1) count++`. -/
def countRowLoop : List Int → Nat → Nat
  | [], acc => acc
  | c :: rest, acc => countRowLoop rest (if c = 1 then acc + 1 else acc)

/-- Outer loop of the `dependencyCount` useMemo in `RequestDataTable.tsx`. -/
def dependencyCountCore : List (List Int) → Nat → Nat
  | [], acc => acc
  | row :: rest, acc => dependencyCountCore rest (countRowLoop row acc)

/-- `RequestDataTable.tsx`, `dependencyCount` useMemo: `0` when the
`dependencyMatrix` prop is `null`, otherwise the number of adjacency
matrix cells `=== 1`. -/
def dependencyCount (m : Option DependencyMatrix) : Nat :=
  match m with
  | none => 0
  | some dm => dependencyCountCore dm.adjacencyMatrix 0

lemma countRowLoop_eq (i : Nat) :
    ∀ (row : List Int) (j : Nat) (acc : Nat),
      countRowLoop row acc = acc + (rowRM i row j).length := by
  intro row
  induction row with
  | nil => intro j acc; simp [countRowLoop, rowRM]
  | cons c rest ih =>
    intro j acc
    by_cases hc : c = 1 <;>
      simp [countRowLoop, rowRM, hc, ih (j + 1)] <;> omega

lemma dependencyCountCore_eq :
    ∀ (rows : List (List Int)) (i : Nat) (acc : Nat),
      dependencyCountCore rows acc = acc + (edgesRM i rows).length := by
  intro rows
  induction rows with
  | nil => intro i acc; simp [dependencyCountCore, edgesRM]
  | cons row rest ih =>
    intro i acc
    simp [dependencyCountCore, edgesRM, countRowLoop_eq i _ 0, ih (i + 1)]
    omega

/-! ### LoliCodeCustomizer: the generation-configuration builder -/

/-- One custom header row `{name, value}` (`LoliCodeCustomizer.tsx`). -/
structure CustomHeader where
  name : String
  value : String
deriving DecidableEq, Repr

/-- The `settings` object literal built inside `handleGenerate`. -/
structure GenerationSettings where
  useProxy : Bool
  followRedirects : Bool
  timeout : Int
  retryCount : Int
deriving DecidableEq, Repr

/-- The `LoliCodeConfig` object literal built by `handleGenerate` in
`LoliCodeCustomizer.tsx`: it carries exactly a `selectedIndices` array and
a `settings` object, nothing else. -/
structure LoliCodeConfig where
  selectedIndices : List Nat
  settings : GenerationSettings
deriving DecidableEq, Repr

/-- The `useState` pieces of `LoliCodeCustomizer`. -/
structure CustomizerState where
  selectedIndices : List Nat
  useProxy : Bool
  followRedirects : Bool
  requestTimeout : Int
  retryCount : Int
  customHeaders : List CustomHeader
deriving DecidableEq, Repr

/-- A semantic entry is irrelevant to index computations; the customizer
only ever reads the entries array positionally, so `availableIndices` is
kept polymorphic in the element type. -/
def availableIndices {α : Type} (entries : List α) : List Nat :=
  entries.enum.map Prod.fst

lemma availableIndices_eq_range {α : Type} (entries : List α) :
    availableIndices entries = List.range entries.length := by
  simp [availableIndices, List.enum_map_fst]

/-- `handleSelectAll` in `LoliCodeCustomizer.tsx`. -/
def handleSelectAll {α : Type} (entries : List α) (s : CustomizerState) : CustomizerState :=
  { s with selectedIndices := availableIndices entries }

/-- `handleSelectNone` in `LoliCodeCustomizer.tsx`. -/
def handleSelectNone (s : CustomizerState) : CustomizerState :=
  { s with selectedIndices := [] }

/-- `handleSelectCriticalPath` in `LoliCodeCustomizer.tsx`: when
`dependencyMatrix?.criticalPath` is truthy (the field is present; arrays,
even empty ones, are truthy) the selection is replaced by the critical
path array itself; otherwise nothing happens. -/
def handleSelectCriticalPath (m : DependencyMatrix) (s : CustomizerState) : CustomizerState :=
  match m.criticalPath with
  | some cp => { s with selectedIndices := cp }
  | none => s

/-- `addCustomHeader` in `LoliCodeCustomizer.tsx`: append `{name:'', value:''}`. -/
def addCustomHeader (hs : List CustomHeader) : List CustomHeader :=
  hs ++ [⟨"", ""⟩]

/-- `removeCustomHeader` in `LoliCodeCustomizer.tsx`: drop the pair at
the given position. -/
def removeCustomHeader (hs : List CustomHeader) (index : Nat) : List CustomHeader :=
  (hs.enum.filter (fun p => p.1 ≠ index)).map Prod.snd

/-- `handleGenerate` in `LoliCodeCustomizer.tsx`: builds the config from
the current state. `selectedIndices.length > 0 ? selectedIndices :
availableIndices` — an empty selection falls back to all available
indices. The accumulated `customHeaders` state is not read here. -/
def handleGenerate {α : Type} (entries : List α) (s : CustomizerState) : LoliCodeConfig :=
  { selectedIndices :=
      if s.selectedIndices.length > 0 then s.selectedIndices else availableIndices entries
    settings :=
      { useProxy := s.useProxy
        followRedirects := s.followRedirects
        timeout := s.requestTimeout
        retryCount := s.retryCount } }

/-- Decimal value of a run of digit characters. -/
def digitsVal (ds : List Char) : Nat :=
  ds.foldl (fun acc c => 10 * acc + (c.toNat - '0'.toNat)) 0

/-- Models the JavaScript `parseInt` builtin with radix 10, which the
settings handlers apply to the raw text of the number inputs: leading
whitespace is skipped, an optional sign is read, then the longest run of
leading decimal digits is converted; when no digit is found the result is
`NaN`, modelled as `none`. -/
def jsParseInt (s : String) : Option Int :=
  let cs := s.data.dropWhile (fun c => c = ' ' || c = '\t' || c = '\n' || c = '\r')
  let signed : Int × List Char :=
    match cs with
    | '-' :: r => (-1, r)
    | '+' :: r => (1, r)
    | r => (1, r)
  let ds := signed.2.takeWhile Char.isDigit
  if ds.isEmpty then none else some (signed.1 * (digitsVal ds : Int))

/-- The timeout input handler in `LoliCodeCustomizer.tsx`:
`setRequestTimeout(Math.max(1, parseInt(e.target.value) || 30))`. -/
def requestTimeoutOnChange (value : String) : Int :=
  max 1 (jsOrElse (jsParseInt value) 30)

/-- The retry-count input handler in `LoliCodeCustomizer.tsx`:
`setRetryCount(Math.max(0, parseInt(e.target.value) || 0))`. -/
def retryCountOnChange (value : String) : Int :=
  max 0 (jsOrElse (jsParseInt value) 0)

/-! ### HARUploader: the semantic-entry normalizer -/

/-- A `{name, value}` record as it appears in HAR header / cookie /
query-string arrays; the normalizer copies these arrays verbatim. -/
structure NameValuePair where
  name : String
  value : String
deriving DecidableEq, Repr

/-- Raw `request.postData` of a HAR entry; its `mimeType` and `text`
fields may themselves be absent and are copied as-is. -/
structure RawPostData where
  mimeType : Option String
  text : Option String
deriving DecidableEq, Repr

/-- Raw `response.content` of a HAR entry. -/
structure RawContent where
  mimeType : Option String
  text : Option String
  size : Option Int
deriving DecidableEq, Repr

/-- The fields of a raw HAR `request` object that `processHARFile`
reads; arrays that may be absent are `Option` (the code defaults them
with `|| []`), and `postData` is absent when the request has no body. -/
structure RawRequest where
  method : String
  url : String
  headers : Option (List NameValuePair)
  postData : Option RawPostData
  bodySize : Option Int
  cookies : Option (List NameValuePair)
  queryString : Option (List NameValuePair)
deriving DecidableEq, Repr

/-- The fields of a raw HAR `response` object that `processHARFile` reads. -/
structure RawResponse where
  status : Int
  statusText : String
  headers : Option (List NameValuePair)
  content : Option RawContent
  cookies : Option (List NameValuePair)
deriving DecidableEq, Repr

/-- One raw HAR entry as read by `processHARFile`. -/
structure RawHarEntry where
  startedDateTime : String
  time : Int
  request : RawRequest
  response : RawResponse
deriving DecidableEq, Repr

/-- Request or response body descriptor of a semantic entry
(`{mimeType, text, size}` as built in `HARUploader.tsx`). -/
structure BodyDescriptor where
  mimeType : Option String
  text : Option String
  size : Int
deriving DecidableEq, Repr

/-- The `request` part of a semantic entry. -/
structure SemanticRequest where
  method : String
  url : String
  headers : List NameValuePair
  body : Option BodyDescriptor
  cookies : List NameValuePair
  queryString : List NameValuePair
deriving DecidableEq, Repr

/-- The `response` part of a semantic entry. -/
structure SemanticResponse where
  status : Int
  statusText : String
  headers : List NameValuePair
  body : Option BodyDescriptor
  cookies : List NameValuePair
deriving DecidableEq, Repr

/-- `SemanticHarEntry` as built by `processHARFile` in `HARUploader.tsx`.
The `tokens` and `dependencies` extension fields are initialized to empty
arrays; their element type never matters to this code, so they are kept
as string lists. -/
structure SemanticHarEntry where
  entryId : String
  timestamp : String
  duration : Int
  request : SemanticRequest
  response : SemanticResponse
  tokens : List String
  dependencies : List String
deriving DecidableEq, Repr

/-- The per-entry mapping inside `processHARFile` (`HARUploader.tsx`):
positional id `entry-<index>`, verbatim copies with `|| []` defaults, a
request body only when `postData` is present, a response body only when
`content` is present, and empty `tokens`/`dependencies`. -/
def toSemanticEntry (index : Nat) (e : RawHarEntry) : SemanticHarEntry :=
  { entryId := "entry-" ++ toString index
    timestamp := e.startedDateTime
    duration := e.time
    request :=
      { method := e.request.method
        url := e.request.url
        headers := e.request.headers.getD []
        body :=
          match e.request.postData with
          | some pd =>
              some { mimeType := pd.mimeType, text := pd.text
                     size := jsOrElse e.request.bodySize 0 }
          | none => none
        cookies := e.request.cookies.getD []
        queryString := e.request.queryString.getD [] }
    response :=
      { status := e.response.status
        statusText := e.response.statusText
        headers := e.response.headers.getD []
        body :=
          match e.response.content with
          | some c =>
              some { mimeType := c.mimeType, text := c.text
                     size := jsOrElse c.size 0 }
          | none => none
        cookies := e.response.cookies.getD [] }
    tokens := []
    dependencies := [] }

/-- `harData.log.entries.map((entry, index) => ...)` in `HARUploader.tsx`. -/
def semanticEntries (raws : List RawHarEntry) : List SemanticHarEntry :=
  raws.enum.map (fun p => toSemanticEntry p.1 p.2)

/-- The `log` object of a parsed HAR file; `entries := none` models a log
object with no (or a falsy) `entries` field. -/
structure HarLogObj where
  entries : Option (List RawHarEntry)

/-- A parsed HAR payload; `log := none` models a payload with no (or a
falsy) `log` field. -/
structure HarData where
  log : Option HarLogObj

/-- The component state that `processHARFile` can touch: the published
entries collection (the workspace slice written by `setHarEntries`), the
user-facing error message, and the processing flag. -/
structure UploaderState where
  harEntries : List SemanticHarEntry
  error : Option String
  isProcessing : Bool

/-- `processHARFile` in `HARUploader.tsx`, as a transition on the state it
touches. The `input` is the outcome of `JSON.parse` on the file text:
`Except.error msg` models malformed JSON (the thrown `SyntaxError`, whose
`message` the catch block surfaces). A parsed payload lacking a truthy
`log` or `log.entries` throws `Error('Invalid HAR file format')`, caught
by the same catch block. Only on full success are the mapped entries
dispatched; every failure path leaves the published entries untouched. -/
def processHARFile (prev : UploaderState) (input : Except String HarData) : UploaderState :=
  match input with
  | .error msg => { prev with error := some msg, isProcessing := false }
  | .ok harData =>
    match harData.log with
    | none => { prev with error := some "Invalid HAR file format", isProcessing := false }
    | some log =>
      match log.entries with
      | none => { prev with error := some "Invalid HAR file format", isProcessing := false }
      | some raws =>
          { harEntries := semanticEntries raws, error := none, isProcessing := false }

/-! ### DependencyGraph: entry labels -/

/-- The result of a successful `new URL(...)`; only the `pathname` field
is read by the components. -/
structure URLParts where
  pathname : String
deriving DecidableEq, Repr

/-- `getEntryLabel` in `DependencyGraph.tsx`, parametrized by the URL
parser (the platform `new URL` constructor, modelled as returning `none`
where the constructor would throw — the `try/catch` around it makes the
function total): a missing entry yields `Request #<index>`, a parse
failure yields `<method> Request #<index>`, and a parsed URL yields
`<method> <last pathname segment>` with `'/'` substituted for an empty
last segment (`url.pathname.split('/').pop() || '/'`). -/
def getEntryLabel (parseURL : String → Option URLParts)
    (entries : List SemanticHarEntry) (index : Nat) : String :=
  match entries[index]? with
  | none => "Request #" ++ toString index
  | some entry =>
    match parseURL entry.request.url with
    | some url =>
        let seg := ((url.pathname.splitOn "/").getLastD "")
        entry.request.method ++ " " ++ (if seg = "" then "/" else seg)
    | none => entry.request.method ++ " Request #" ++ toString index

/-- Leading characters of a URL path up to a query or fragment delimiter. -/
def pathChars (cs : List Char) : List Char :=
  cs.takeWhile (fun c => !(c = '?' || c = '#'))

/-- Scheme tail check: after a leading letter, a WHATWG URL scheme is a
run of letters, digits, `+`, `-` or `.` terminated by `:`. -/
def schemeTailOk : List Char → Bool
  | [] => false
  | c :: rest =>
      if c = ':' then true
      else if c.isAlphanum || c = '+' || c = '-' || c = '.' then schemeTailOk rest
      else false

/-- Modelled from the spec: the WHATWG URL parser behind the platform
`new URL` constructor is not part of this repository. The model keeps the
behaviour the components rely on: construction fails (throws, modelled
`none`) exactly when the input does not start with a URL scheme — a
letter followed by letters/digits/`+`/`-`/`.` and a `:` — and otherwise
yields a pathname read off after the scheme (skipping an authority
introduced by `//`) up to a query or fragment. In particular a schemeless
string such as `"not a url"` fails to parse. -/
def jsURLParse (s : String) : Option URLParts :=
  match s.data with
  | [] => none
  | c :: rest =>
      if c.isAlpha && schemeTailOk rest then
        let after := (s.data.dropWhile (fun ch => ch ≠ ':')).drop 1
        match after with
        | '/' :: '/' :: hostRest => some ⟨⟨pathChars (hostRest.dropWhile (fun ch => ch ≠ '/'))⟩⟩
        | _ => some ⟨⟨pathChars after⟩⟩
      else none

/-- A concrete entry whose URL does not parse (`"not a url"`). -/
def unparsableEntry : SemanticHarEntry :=
  { entryId := "entry-0"
    timestamp := "2024-01-01T00:00:00Z"
    duration := 10
    request :=
      { method := "GET", url := "not a url", headers := [], body := none
        cookies := [], queryString := [] }
    response :=
      { status := 200, statusText := "OK", headers := [], body := none
        cookies := [] }
    tokens := []
    dependencies := [] }

/-! ### Injectivity of decimal printing, for entry-id uniqueness -/

/-- The characters of the decimal representation of a positive number:
its base-10 digits, mapped to digit characters, most significant first. -/
def digitsChars (n : Nat) : List Char :=
  ((Nat.digits 10 n).map Nat.digitChar).reverse

lemma toDigitsCore_eq_digitsChars :
    ∀ (fuel n : Nat) (l : List Char), n < fuel →
      Nat.toDigitsCore 10 fuel n l = (if n = 0 then ['0'] else digitsChars n) ++ l := by
  intro fuel
  induction fuel with
  | zero => intro n l h; omega
  | succ f ih =>
    intro n l h
    simp only [Nat.toDigitsCore]
    by_cases hdiv : n / 10 = 0
    · have hlt : n < 10 := by
        by_contra hge
        push_neg at hge
        have := Nat.div_pos hge (by norm_num)
        omega
      by_cases hn : n = 0
      · subst hn
        simp [Nat.digitChar]
      · have hmod : n % 10 = n := Nat.mod_eq_of_lt hlt
        simp [hdiv, hn, digitsChars, Nat.digits_of_lt 10 n hn hlt, hmod]
    · have hn : n ≠ 0 := by
        intro h0; exact hdiv (by simp [h0])
      have hrec : n / 10 < f := by
        have h1 : n / 10 < n := Nat.div_lt_self (Nat.pos_of_ne_zero hn) (by norm_num)
        omega
      rw [if_neg hdiv, ih (n / 10) (Nat.digitChar (n % 10) :: l) hrec]
      rw [if_neg hdiv]
      have hdig : Nat.digits 10 n = n % 10 :: Nat.digits 10 (n / 10) :=
        Nat.digits_def' (by norm_num) (Nat.pos_of_ne_zero hn)
      rw [if_neg hn]
      simp [digitsChars, hdig]

lemma natToString_data (n : Nat) :
    (toString n : String).data = (if n = 0 then ['0'] else digitsChars n) := by
  show (Nat.repr n).data = _
  rw [Nat.repr, Nat.toDigits,
    toDigitsCore_eq_digitsChars (n + 1) n [] (Nat.lt_succ_self n)]
  simp [List.asString]

lemma digitChar_inj :
    ∀ a < 10, ∀ b < 10, Nat.digitChar a = Nat.digitChar b → a = b := by decide

lemma map_digitChar_inj :
    ∀ (l1 l2 : List Nat), (∀ d ∈ l1, d < 10) → (∀ d ∈ l2, d < 10) →
      l1.map Nat.digitChar = l2.map Nat.digitChar → l1 = l2 := by
  intro l1
  induction l1 with
  | nil => intro l2 _ _ h; cases l2 <;> simp_all
  | cons a t ihn =>
    intro l2 h1 h2 h
    cases l2 with
    | nil => simp_all
    | cons b t2 =>
      simp only [List.map_cons, List.cons.injEq] at h
      have hab : a = b :=
        digitChar_inj a (h1 a (by simp)) b (h2 b (by simp)) h.1
      have ht : t = t2 :=
        ihn t2 (fun d hd => h1 d (by simp [hd])) (fun d hd => h2 d (by simp [hd])) h.2
      simp [hab, ht]

lemma digitsChars_ne_zeroChar (n : Nat) (hn : n ≠ 0) : digitsChars n ≠ ['0'] := by
  intro hcon
  have hrev : (Nat.digits 10 n).map Nat.digitChar = ['0'] := by
    have := congrArg List.reverse hcon
    simpa [digitsChars] using this
  have hlen : (Nat.digits 10 n).length = 1 := by
    have := congrArg List.length hrev
    simpa using this
  obtain ⟨d, hd⟩ : ∃ d, Nat.digits 10 n = [d] := by
    cases hdg : Nat.digits 10 n with
    | nil => rw [hdg] at hlen; simp at hlen
    | cons x t =>
      rw [hdg] at hlen
      simp at hlen
      exact ⟨x, by simp [hdg, hlen]⟩
  have hdchar : Nat.digitChar d = '0' := by
    rw [hd] at hrev; simpa using hrev
  have hdmem : d ∈ Nat.digits 10 n := by rw [hd]; simp
  have hd10 : d < 10 := Nat.digits_lt_base (by norm_num) hdmem
  have hd0 : d = 0 := digitChar_inj d hd10 0 (by norm_num) (by rw [hdchar]; decide)
  have hofd := Nat.ofDigits_digits 10 n
  rw [hd, hd0] at hofd
  simp [Nat.ofDigits] at hofd
  exact hn hofd.symm

lemma natToString_inj (m n : Nat) (h : (toString m : String) = toString n) : m = n := by
  have hdata := congrArg String.data h
  rw [natToString_data, natToString_data] at hdata
  by_cases hm : m = 0 <;> by_cases hn : n = 0
  · omega
  · rw [if_pos hm, if_neg hn] at hdata
    exact absurd hdata.symm (digitsChars_ne_zeroChar n hn)
  · rw [if_neg hm, if_pos hn] at hdata
    exact absurd hdata (digitsChars_ne_zeroChar m hm)
  · rw [if_neg hm, if_neg hn] at hdata
    have hmap : (Nat.digits 10 m).map Nat.digitChar = (Nat.digits 10 n).map Nat.digitChar := by
      have := congrArg List.reverse hdata
      simpa [digitsChars] using this
    have hdig : Nat.digits 10 m = Nat.digits 10 n :=
      map_digitChar_inj _ _ (fun d hd => Nat.digits_lt_base (by norm_num) hd)
        (fun d hd => Nat.digits_lt_base (by norm_num) hd) hmap
    exact Nat.digits_inj_iff.mp hdig

lemma entryId_inj (m n : Nat)
    (h : ("entry-" ++ toString m : String) = "entry-" ++ toString n) : m = n := by
  apply natToString_inj
  have hdata := congrArg String.data h
  simp only [String.data_append] at hdata
  have hlist : (toString m : String).data = (toString n : String).data :=
    List.append_cancel_left hdata
  cases hm : (toString m : String)
  cases hn : (toString n : String)
  rw [hm, hn] at hlist
  simp at hlist
  simp [hm, hn, hlist]

/-- A 6×6 adjacency matrix whose only 1 is at row 2, column 5. -/
def exampleMatrix : AdjacencyMatrix :=
  [[0, 0, 0, 0, 0, 0],
   [0, 0, 0, 0, 0, 0],
   [0, 0, 0, 0, 0, 1],
   [0, 0, 0, 0, 0, 0],
   [0, 0, 0, 0, 0, 0],
   [0, 0, 0, 0, 0, 0]]

/-- An adjacency matrix holding cells different from exactly 1. -/
def nonOneMatrix : AdjacencyMatrix :=
  [[2, 3], [0, 7]]

/-- A concrete customizer state with an empty selection and default settings. -/
def emptySelState : CustomizerState :=
  { selectedIndices := [], useProxy := true, followRedirects := true
    requestTimeout := 30, retryCount := 0, customHeaders := [] }

/-- A concrete raw HAR entry carrying a request body and response content. -/
def rawWithBody : RawHarEntry :=
  { startedDateTime := "2024-01-01T00:00:00Z"
    time := 12
    request :=
      { method := "POST", url := "https://example.com/api/login"
        headers := some [⟨"Content-Type", "application/json"⟩]
        postData := some { mimeType := some "application/json", text := some "{}" }
        bodySize := some 2
        cookies := some []
        queryString := none }
    response :=
      { status := 200, statusText := "OK", headers := none
        content := some { mimeType := some "text/html", text := none, size := some 5 }
        cookies := none } }

/-- A concrete raw HAR entry with neither post-data nor response content. -/
def rawNoBody : RawHarEntry :=
  { startedDateTime := "2024-01-01T00:00:01Z"
    time := 3
    request :=
      { method := "GET", url := "https://example.com/home"
        headers := none, postData := none, bodySize := none
        cookies := none, queryString := none }
    response :=
      { status := 204, statusText := "No Content", headers := none
        content := none, cookies := none } }

/-- A concrete uploader state holding one previously published entry. -/
def prevUploaderState : UploaderState :=
  { harEntries := [unparsableEntry], error := none, isProcessing := false }

/-! ### Claim theorems -/

/-- C1: in `handleGenerate`, an empty user selection falls back to the
full index range over the available entries: with `N` entries the built
config selects `[0 .. N-1]` (so `[0,1,2,3,4]` for 5 entries, and the
empty range only when no entries exist at all); in particular an empty
selection with entries present never produces an empty `selectedIndices`. -/
theorem build_empty_selection_falls_back {α : Type} (entries : List α)
    (s : CustomizerState) (hsel : s.selectedIndices = []) :
    (handleGenerate entries s).selectedIndices = List.range entries.length
    ∧ (entries.length = 0 → (handleGenerate entries s).selectedIndices = [])
    ∧ (entries.length = 5 → (handleGenerate entries s).selectedIndices = [0, 1, 2, 3, 4])
    ∧ (0 < entries.length → (handleGenerate entries s).selectedIndices ≠ []) := by
  have hbase : (handleGenerate entries s).selectedIndices = List.range entries.length := by
    simp [handleGenerate, hsel, availableIndices_eq_range]
  refine ⟨hbase, ?_, ?_, ?_⟩
  · intro h0; rw [hbase, h0]; rfl
  · intro h5; rw [hbase, h5]; rfl
  · intro hpos
    rw [hbase]
    intro hcon
    rw [List.range_eq_nil] at hcon
    omega

/-- Witness for C1: an empty selection over 5 entries builds the config
`selectedIndices = [0,1,2,3,4]`. -/
theorem build_empty_selection_falls_back_witness :
    (handleGenerate [0, 0, 0, 0, 0] emptySelState).selectedIndices = [0, 1, 2, 3, 4] :=
  (build_empty_selection_falls_back [0, 0, 0, 0, 0] emptySelState rfl).2.2.1 rfl

/-- C2: the `dependencies` useMemo of `DependencyGraph` equals the
row-major scan of the adjacency matrix (rows ascending, then columns
ascending, one edge per cell equal to 1), it is deterministic, and on a
matrix whose only 1 sits at `[2][5]` it returns exactly
`[{fromIndex := 2, toIndex := 5}]`. -/
theorem dependencies_rowMajor_scan :
    (∀ m : AdjacencyMatrix, dependencies m = edgesRowMajor m)
    ∧ (∀ m1 m2 : AdjacencyMatrix, m1 = m2 → dependencies m1 = dependencies m2)
    ∧ dependencies exampleMatrix = [⟨2, 5⟩] :=
  ⟨dependencies_eq_rowMajor, fun _ _ h => by rw [h], by rfl⟩

/-- Witness for C2: instantiating the determinism clause and the scan
characterization on the concrete example matrix. -/
theorem dependencies_rowMajor_scan_witness :
    dependencies exampleMatrix = edgesRowMajor exampleMatrix
    ∧ dependencies exampleMatrix = dependencies exampleMatrix :=
  ⟨dependencies_rowMajor_scan.1 exampleMatrix,
   dependencies_rowMajor_scan.2.1 exampleMatrix exampleMatrix rfl⟩

/-- C3 counterexample: the timeout handler is
`Math.max(1, parseInt(v) || 30)`; the input `-5` produces `1`, not the
claimed `30`, and the input `1000` produces `1000`, not the claimed
clamp to `300`. -/
theorem timeout_clamp_cex :
    requestTimeoutOnChange "-5" = 1
    ∧ requestTimeoutOnChange "-5" ≠ 30
    ∧ requestTimeoutOnChange "1000" = 1000
    ∧ requestTimeoutOnChange "1000" ≠ 300 := by
  refine ⟨by decide, by decide, by decide, by decide⟩

/-- C3 amended: the timeout handler lower-clamps to 1 and coerces
non-numeric (or zero) input to the default 30, but applies no upper
clamp: `"abc"` gives 30, a parsed value `n ≥ 1` passes through unchanged
(so 1000 stays 1000), and a parsed negative value becomes 1 (so -5 gives
1, not 30); the result is always at least 1. -/
theorem timeout_onChange_behavior (s : String) :
    (jsParseInt s = none ∨ jsParseInt s = some 0 → requestTimeoutOnChange s = 30)
    ∧ (∀ n : Int, jsParseInt s = some n → 1 ≤ n → requestTimeoutOnChange s = n)
    ∧ (∀ n : Int, jsParseInt s = some n → n < 0 → requestTimeoutOnChange s = 1)
    ∧ 1 ≤ requestTimeoutOnChange s := by
  refine ⟨?_, ?_, ?_, ?_⟩
  · rintro (h | h) <;> simp [requestTimeoutOnChange, h, jsOrElse]
  · intro n hn h1
    have hne : n ≠ 0 := by omega
    simp [requestTimeoutOnChange, hn, jsOrElse, hne]
    omega
  · intro n hn hneg
    have hne : n ≠ 0 := by omega
    simp [requestTimeoutOnChange, hn, jsOrElse, hne]
    omega
  · simp [requestTimeoutOnChange, le_max_iff]

/-- Witness for C3 amended: concrete inputs `"abc"`, `"1000"`, `"-5"`. -/
theorem timeout_onChange_behavior_witness :
    requestTimeoutOnChange "abc" = 30
    ∧ requestTimeoutOnChange "1000" = 1000
    ∧ requestTimeoutOnChange "-5" = 1 :=
  ⟨(timeout_onChange_behavior "abc").1 (Or.inl rfl),
   (timeout_onChange_behavior "1000").2.1 1000 rfl (by norm_num),
   (timeout_onChange_behavior "-5").2.2.1 (-5) (by decide) (by norm_num)⟩

/-- C4 counterexample: the retry handler is
`Math.max(0, parseInt(v) || 0)`; the input `50` produces `50`, not the
claimed clamp to `10`. -/
theorem retry_clamp_cex :
    retryCountOnChange "50" = 50 ∧ retryCountOnChange "50" ≠ 10 := by
  refine ⟨by decide, by decide⟩

/-- C4 amended: the retry handler lower-clamps to 0 and coerces invalid
input to 0, but applies no upper clamp: `-1` gives 0, a parsed value
`n ≥ 0` passes through unchanged (so 50 stays 50); the result is always
non-negative. -/
theorem retry_onChange_behavior (s : String) :
    (jsParseInt s = none ∨ jsParseInt s = some 0 → retryCountOnChange s = 0)
    ∧ (∀ n : Int, jsParseInt s = some n → 0 ≤ n → retryCountOnChange s = n)
    ∧ (∀ n : Int, jsParseInt s = some n → n < 0 → retryCountOnChange s = 0)
    ∧ 0 ≤ retryCountOnChange s := by
  refine ⟨?_, ?_, ?_, ?_⟩
  · rintro (h | h) <;> simp [retryCountOnChange, h, jsOrElse]
  · intro n hn h0
    by_cases hne : n = 0
    · simp [retryCountOnChange, hn, jsOrElse, hne]
    · simp [retryCountOnChange, hn, jsOrElse, hne]
      omega
  · intro n hn hneg
    have hne : n ≠ 0 := by omega
    simp [retryCountOnChange, hn, jsOrElse, hne]
    omega
  · simp [retryCountOnChange, le_max_iff]

/-- Witness for C4 amended: concrete inputs `"-1"` and `"50"`. -/
theorem retry_onChange_behavior_witness :
    retryCountOnChange "-1" = 0 ∧ retryCountOnChange "50" = 50 :=
  ⟨(retry_onChange_behavior "-1").2.2.1 (-1) (by decide) (by norm_num),
   (retry_onChange_behavior "50").2.1 50 rfl (by norm_num)⟩

/-- C5 counterexample: the config built by `handleGenerate` does not
include the accumulated custom headers — building from a state holding
the header `{name: "X-Test", value: "1"}` yields the very same config as
building from the same state with no headers at all, so the headers
cannot be part of the finalized config. -/
theorem config_headers_cex :
    handleGenerate ([] : List Nat)
        { emptySelState with customHeaders := [⟨"X-Test", "1"⟩] }
      = handleGenerate ([] : List Nat) emptySelState := rfl

/-- C5 amended: the component accumulates custom headers, but the
finalized `LoliCodeConfig` consists of `selectedIndices` and `settings`
only; it is independent of the custom-header state (the headers are not
handed to the generator — the repository docs mark this integration as
pending). -/
theorem config_independent_of_headers {α : Type} (entries : List α)
    (s : CustomizerState) (hs : List CustomHeader) :
    handleGenerate entries { s with customHeaders := hs } = handleGenerate entries s := rfl

/-- C6 counterexample: `getEntryLabel` renders the raw 0-based index. For
the entry at index 0 whose URL is `"not a url"` the label is
`"GET Request #0"`, not the 1-based `"GET Request #1"` the claim
requires; and for an absent entry the label is `"Request #0"`, which
also lacks the claimed `<METHOD>` part. -/
theorem label_zero_based_cex :
    getEntryLabel jsURLParse [unparsableEntry] 0 = "GET Request #0"
    ∧ getEntryLabel jsURLParse [unparsableEntry] 0 ≠ "GET Request #1"
    ∧ getEntryLabel jsURLParse [] 0 = "Request #0" := by
  refine ⟨by decide, by decide, by decide⟩

/-- C6 amended: `getEntryLabel` never raises (it is total, the
`try/catch` around `new URL` absorbing the parse failure): whatever the
URL parser does, an absent entry yields `"Request #<index>"` (no method
available) and an entry whose URL fails to parse yields
`"<METHOD> Request #<index>"` — in both cases with the 0-based index
displayed verbatim, not 1-based. -/
theorem label_fallbacks (parseURL : String → Option URLParts)
    (entries : List SemanticHarEntry) (index : Nat) :
    (entries[index]? = none →
      getEntryLabel parseURL entries index = "Request #" ++ toString index)
    ∧ (∀ e, entries[index]? = some e → parseURL e.request.url = none →
        getEntryLabel parseURL entries index
          = e.request.method ++ " Request #" ++ toString index) := by
  constructor
  · intro h; simp [getEntryLabel, h]
  · intro e he hp; simp [getEntryLabel, he, hp]

/-- Witness for C6 amended: the concrete unparsable entry at index 0 and
the absent entry at index 0. -/
theorem label_fallbacks_witness :
    getEntryLabel jsURLParse [unparsableEntry] 0
      = unparsableEntry.request.method ++ " Request #" ++ toString 0
    ∧ getEntryLabel jsURLParse [] 0 = "Request #" ++ toString 0 :=
  ⟨(label_fallbacks jsURLParse [unparsableEntry] 0).2 unparsableEntry rfl (by decide),
   (label_fallbacks jsURLParse [] 0).1 rfl⟩

/-- C9: when the dependency matrix carries a non-empty critical path,
`handleSelectCriticalPath` replaces the selection with exactly that
sequence — same elements, same order, no re-sorting, no deduplication. -/
theorem selectCriticalPath_exact (m : DependencyMatrix) (s : CustomizerState)
    (cp : List Nat) (hcp : m.criticalPath = some cp) (hne : cp ≠ []) :
    (handleSelectCriticalPath m s).selectedIndices = cp := by
  simp [handleSelectCriticalPath, hcp]

/-- Witness for C9: critical path `[3,1,4]` becomes the selection
`[3,1,4]`, in that order. -/
theorem selectCriticalPath_exact_witness :
    (handleSelectCriticalPath ⟨[], some [3, 1, 4]⟩ emptySelState).selectedIndices
      = [3, 1, 4] :=
  selectCriticalPath_exact ⟨[], some [3, 1, 4]⟩ emptySelState [3, 1, 4] rfl (by decide)

/-- C10: the dependency count computed by `RequestDataTable` equals the
length of the edge list derived by `DependencyGraph` from the same
matrix (both count exactly the cells equal to 1, so cells holding any
other value — as in `nonOneMatrix` — contribute to neither), and a
`null` matrix counts 0. -/
theorem dependencyCount_matches_edges :
    (∀ dm : DependencyMatrix,
      dependencyCount (some dm) = (dependencies dm.adjacencyMatrix).length)
    ∧ dependencyCount none = 0
    ∧ dependencyCount (some ⟨nonOneMatrix, none⟩) = 0
    ∧ dependencies nonOneMatrix = [] := by
  refine ⟨?_, rfl, by rfl, by rfl⟩
  intro dm
  rw [dependencies_eq_rowMajor]
  show dependencyCountCore dm.adjacencyMatrix 0 = (edgesRM 0 dm.adjacencyMatrix).length
  rw [dependencyCountCore_eq dm.adjacencyMatrix 0 0]
  omega

/-- C7: normalization of a valid HAR with N entries yields exactly N
semantic entries, the i-th output mapped from the i-th input (original
capture order); each carries the positional id `entry-<i>`, the ids are
pairwise distinct, `tokens` and `dependencies` start empty, a request
body descriptor exists precisely when post-data was present and a
response body descriptor precisely when response content was present. -/
theorem normalize_shape (raws : List RawHarEntry) :
    (semanticEntries raws).length = raws.length
    ∧ (∀ i (h : i < raws.length),
        (semanticEntries raws)[i]? = some (toSemanticEntry i (raws.get ⟨i, h⟩)))
    ∧ (∀ (index : Nat) (e : RawHarEntry),
        (toSemanticEntry index e).entryId = "entry-" ++ toString index
        ∧ (toSemanticEntry index e).tokens = []
        ∧ (toSemanticEntry index e).dependencies = []
        ∧ ((toSemanticEntry index e).request.body.isSome ↔ e.request.postData.isSome)
        ∧ ((toSemanticEntry index e).response.body.isSome ↔ e.response.content.isSome))
    ∧ ((semanticEntries raws).map (fun e => e.entryId)).Nodup := by
  refine ⟨?_, ?_, ?_, ?_⟩
  · simp [semanticEntries]
  · intro i h
    simp [semanticEntries, List.getElem?_enum, List.getElem?_eq_getElem h]
  · intro index e
    refine ⟨rfl, rfl, rfl, ?_, ?_⟩
    · cases hpd : e.request.postData <;> simp [toSemanticEntry, hpd]
    · cases hct : e.response.content <;> simp [toSemanticEntry, hct]
  · have hmap : (semanticEntries raws).map (fun e => e.entryId)
        = (List.range raws.length).map (fun i => "entry-" ++ toString i) := by
      rw [semanticEntries, List.map_map]
      rw [show ((fun e : SemanticHarEntry => e.entryId)
            ∘ (fun p : Nat × RawHarEntry => toSemanticEntry p.1 p.2))
          = (fun i : Nat => "entry-" ++ toString i) ∘ Prod.fst from rfl]
      rw [← List.map_map, List.enum_map_fst]
    rw [hmap]
    exact (List.nodup_range _).map (fun a b hab => entryId_inj a b hab)

/-- Witness for C7: two concrete raw entries, one with post-data and
content, one without. -/
theorem normalize_shape_witness :
    (semanticEntries [rawWithBody, rawNoBody]).length = 2
    ∧ (semanticEntries [rawWithBody, rawNoBody])[1]?
        = some (toSemanticEntry 1 rawNoBody)
    ∧ (toSemanticEntry 0 rawWithBody).request.body.isSome
    ∧ (toSemanticEntry 1 rawNoBody).request.body.isSome = false :=
  ⟨(normalize_shape [rawWithBody, rawNoBody]).1,
   (normalize_shape [rawWithBody, rawNoBody]).2.1 1 (by norm_num),
   ((normalize_shape [rawWithBody, rawNoBody]).2.2.1 0 rawWithBody).2.2.2.1.mpr rfl,
   by decide⟩

/-- C8: `processHARFile` is all-or-nothing — for malformed JSON (the
parse throws, its message surfaced) or a payload lacking `log.entries`,
an error message is set and the previously published entries are left
untouched; nothing partial is ever dispatched. -/
theorem processHARFile_allOrNothing (prev : UploaderState) :
    (∀ msg, (processHARFile prev (Except.error msg)).harEntries = prev.harEntries
      ∧ (processHARFile prev (Except.error msg)).error = some msg)
    ∧ (∀ d : HarData, d.log.bind HarLogObj.entries = none →
        (processHARFile prev (Except.ok d)).harEntries = prev.harEntries
        ∧ (processHARFile prev (Except.ok d)).error = some "Invalid HAR file format") := by
  constructor
  · intro msg; exact ⟨rfl, rfl⟩
  · intro d hd
    cases hlog : d.log with
    | none => simp [processHARFile, hlog]
    | some l =>
      rw [hlog] at hd
      simp only [Option.bind] at hd
      simp [processHARFile, hlog, hd]

/-- Witness for C8: a malformed-JSON failure and a payload whose `log`
is absent, both leaving the previously published entry in place. -/
theorem processHARFile_allOrNothing_witness :
    (processHARFile prevUploaderState (Except.error "Unexpected token")).harEntries
      = prevUploaderState.harEntries
    ∧ (processHARFile prevUploaderState (Except.error "Unexpected token")).error
      = some "Unexpected token"
    ∧ (processHARFile prevUploaderState (Except.ok ⟨none⟩)).harEntries
      = prevUploaderState.harEntries :=
  ⟨((processHARFile_allOrNothing prevUploaderState).1 "Unexpected token").1,
   ((processHARFile_allOrNothing prevUploaderState).1 "Unexpected token").2,
   ((processHARFile_allOrNothing prevUploaderState).2 ⟨none⟩ rfl).1⟩

end HarLoli
